import Mathlib

/-!
Verification development for the funtonic repository (task server, predicate
query language, signed-payload envelope, key stores).

The Rust sources are shallowly embedded: pure functions become Lean functions,
`HashMap`s become either association lists (where the code iterates them) or
functions `String → Option β` (where only lookup/insert/remove are used),
byte slices become `List Nat`, `u64` values become `Nat`, and fallible code
returns `Except`.  External libraries (ring's Ed25519, prost encoding, nom's
error formatting) are abstracted as parameters.
-/

namespace Funtonic

/-- `MatchResult` from query-parser/src/lib.rs (lines 59-68): three-valued
match outcome. -/
inductive MatchResult : Type
  | Match
  | NoMatch
  | Rejected
  deriving DecidableEq, Repr

/-- `MatchResult::matches` (query-parser/src/lib.rs lines 70-77): true only
for the `Match` variant. -/
def MatchResult.matches : MatchResult → Bool
  | .Match => true
  | _ => false

/-- `impl Not for MatchResult` (lib.rs lines 97-107). -/
def notM : MatchResult → MatchResult
  | .Match => .Rejected
  | .NoMatch => .Match
  | .Rejected => .Match

/-- `impl BitAnd for MatchResult` (lib.rs lines 109-127). -/
def andM : MatchResult → MatchResult → MatchResult
  | .Match, .Match => .Match
  | .Match, .NoMatch => .NoMatch
  | .Match, .Rejected => .Rejected
  | .NoMatch, .Match => .NoMatch
  | .NoMatch, .NoMatch => .NoMatch
  | .NoMatch, .Rejected => .Rejected
  | .Rejected, _ => .Rejected

/-- `impl BitOr for MatchResult` (lib.rs lines 139-152). -/
def orM : MatchResult → MatchResult → MatchResult
  | .Match, _ => .Match
  | .NoMatch, rhs => rhs
  | .Rejected, .Match => .Match
  | .Rejected, .NoMatch => .Rejected
  | .Rejected, .Rejected => .Rejected

/-- `impl BitXor for MatchResult` (lib.rs lines 85-95): rejection-preserving
combiner; falls back to `|` when neither side is `Rejected`. -/
def xorM (a b : MatchResult) : MatchResult :=
  if a = .Rejected ∨ b = .Rejected then .Rejected else orM a b

/-- `impl From<bool> for MatchResult` (lib.rs lines 129-137). -/
def boolToMatch (b : Bool) : MatchResult :=
  if b then .Match else .NoMatch

/-- `Query` AST (query-parser/src/lib.rs lines 45-53).  The current parser
(`parser_ng`) builds the n-ary `And`/`Or` nodes of this type directly. -/
inductive Query : Type
  | Pattern (s : String)
  | FieldPattern (f : String) (q : Query)
  | Wildcard
  | And (cs : List Query)
  | Or (cs : List Query)
  | Not (q : Query)

mutual

/-- `impl QueryMatcher for &str` (lib.rs lines 160-171). -/
def strQmatches (s : String) : Query → MatchResult
  | .Pattern p => boolToMatch (p = s)
  | .FieldPattern _ _ => .NoMatch
  | .Wildcard => .Match
  | .And cs => strFoldAnd s cs .Match
  | .Or cs => strFoldOr s cs .NoMatch
  | .Not q => notM (strQmatches s q)
termination_by q => 2 * sizeOf q
decreasing_by all_goals (simp_wf <;> omega)

/-- The fold `and.iter().fold(Match, |m, q| m & self.qmatches(q))` of the
`&str` matcher, written as explicit recursion (Rust `fold` is a left fold). -/
def strFoldAnd (s : String) : List Query → MatchResult → MatchResult
  | [], acc => acc
  | c :: cs, acc => strFoldAnd s cs (andM acc (strQmatches s c))
termination_by cs _ => 2 * sizeOf cs + 1
decreasing_by all_goals (simp_wf <;> omega)

/-- The fold `or.iter().fold(NoMatch, |m, q| m | self.qmatches(q))` of the
`&str` matcher. -/
def strFoldOr (s : String) : List Query → MatchResult → MatchResult
  | [], acc => acc
  | c :: cs, acc => strFoldOr s cs (orM acc (strQmatches s c))
termination_by cs _ => 2 * sizeOf cs + 1
decreasing_by all_goals (simp_wf <;> omega)

end

/-- `impl<Q: QueryMatcher> QueryMatcher for &[Q]` (lib.rs lines 211-230),
parametric in the element matcher `em` (the trait method `Q::qmatches`).
`And(clauses)` requires every clause to (xor-)fold over the items;
`Or(clauses)` or-folds each clause over the items; `Not`, `Pattern` and
`FieldPattern` fold the whole query over the items. -/
def sliceQmatches {α : Type} (em : α → Query → MatchResult) (self : List α) :
    Query → MatchResult
  | .Wildcard => .Match
  | .And clauses =>
      clauses.foldl
        (fun m q => andM m (self.foldl (fun m' item => xorM m' (em item q)) .NoMatch))
        .Match
  | .Or clauses =>
      clauses.foldl
        (fun m q => orM m (self.foldl (fun m' item => orM m' (em item q)) .NoMatch))
        .NoMatch
  | .Not q => self.foldl (fun m item => andM m (em item (.Not q))) .Match
  | .Pattern p => self.foldl (fun m item => orM m (em item (.Pattern p))) .NoMatch
  | .FieldPattern f q =>
      self.foldl (fun m item => orM m (em item (.FieldPattern f q))) .NoMatch

/-- `Tag` (common/src/executor_meta.rs lines 14-20): scalar string, list of
tags, or string-keyed map of tags.  The `HashMap<String, Tag>` is embedded as
an association list. -/
inductive Tag : Type
  | Map (m : List (String × Tag))
  | List (l : List Tag)
  | Value (v : String)

mutual

/-- `impl QueryMatcher for Tag` (executor_meta.rs lines 218-226): dispatch on
the variant. -/
def tagQmatches : Tag → Query → MatchResult
  | .Map m, q => mapQmatches m q
  | .List l, q => tagListQmatches l q
  | .Value v, q => strQmatches v q
termination_by t q => 2 * (sizeOf t + sizeOf q)
decreasing_by all_goals (simp_wf <;> omega)

/-- `impl QueryMatcher for F (F: FieldExtractable)` (lib.rs lines 195-209)
instantiated at `HashMap<String, Tag>` where `extract_field` is map lookup. -/
def mapQmatches (m : List (String × Tag)) : Query → MatchResult
  | .Pattern _ => .NoMatch
  | .FieldPattern f q => mapFieldMatch m f q
  | .Wildcard => .Match
  | .And cs => mapFoldAnd m cs .Match
  | .Or cs => mapFoldOr m cs .NoMatch
  | .Not q => notM (mapQmatches m q)
termination_by q => 2 * (sizeOf m + sizeOf q) + 1
decreasing_by all_goals (simp_wf <;> omega)

/-- `self.extract_field(field).map(|v| v.qmatches(q)).unwrap_or(NoMatch)` for
the association-list embedding of `HashMap::get`. -/
def mapFieldMatch : List (String × Tag) → String → Query → MatchResult
  | [], _, _ => .NoMatch
  | (k, v) :: rest, f, q => if k = f then tagQmatches v q else mapFieldMatch rest f q
termination_by m _ q => 2 * (sizeOf m + sizeOf q)
decreasing_by all_goals (simp_wf <;> omega)

/-- The `And` fold of the map matcher. -/
def mapFoldAnd (m : List (String × Tag)) : List Query → MatchResult → MatchResult
  | [], acc => acc
  | c :: cs, acc => mapFoldAnd m cs (andM acc (mapQmatches m c))
termination_by cs _ => 2 * (sizeOf m + sizeOf cs) + 1
decreasing_by all_goals (simp_wf <;> omega)

/-- The `Or` fold of the map matcher. -/
def mapFoldOr (m : List (String × Tag)) : List Query → MatchResult → MatchResult
  | [], acc => acc
  | c :: cs, acc => mapFoldOr m cs (orM acc (mapQmatches m c))
termination_by cs _ => 2 * (sizeOf m + sizeOf cs) + 1
decreasing_by all_goals (simp_wf <;> omega)

/-- `impl QueryMatcher for &[Q]` (lib.rs lines 211-230) instantiated at
`Q = Tag`; the same case split as `sliceQmatches`, with the folds written as
explicit recursion so the mutual recursion with `tagQmatches` terminates. -/
def tagListQmatches (l : List Tag) : Query → MatchResult
  | .Wildcard => .Match
  | .And cs => listFoldAndClauses l cs .Match
  | .Or cs => listFoldOrClauses l cs .NoMatch
  | .Not q => listFoldAndItems l (.Not q) .Match
  | .Pattern p => listFoldOrItems l (.Pattern p) .NoMatch
  | .FieldPattern f q => listFoldOrItems l (.FieldPattern f q) .NoMatch
termination_by q => 2 * (sizeOf l + sizeOf q) + 1
decreasing_by all_goals (simp_wf <;> omega)

/-- Outer `And` fold: each clause xor-folds over the items. -/
def listFoldAndClauses (l : List Tag) : List Query → MatchResult → MatchResult
  | [], acc => acc
  | c :: cs, acc => listFoldAndClauses l cs (andM acc (listFoldXorItems l c .NoMatch))
termination_by cs _ => 2 * (sizeOf l + sizeOf cs) + 1
decreasing_by all_goals (simp_wf <;> omega)

/-- Outer `Or` fold: each clause or-folds over the items. -/
def listFoldOrClauses (l : List Tag) : List Query → MatchResult → MatchResult
  | [], acc => acc
  | c :: cs, acc => listFoldOrClauses l cs (orM acc (listFoldOrItems l c .NoMatch))
termination_by cs _ => 2 * (sizeOf l + sizeOf cs) + 1
decreasing_by all_goals (simp_wf <;> omega)

/-- `self.iter().fold(NoMatch, |m, item| m ^ item.qmatches(q))`. -/
def listFoldXorItems : List Tag → Query → MatchResult → MatchResult
  | [], _, acc => acc
  | t :: ts, q, acc => listFoldXorItems ts q (xorM acc (tagQmatches t q))
termination_by l q _ => 2 * (sizeOf l + sizeOf q)
decreasing_by all_goals (simp_wf <;> omega)

/-- `self.iter().fold(NoMatch, |m, item| m | item.qmatches(query))`. -/
def listFoldOrItems : List Tag → Query → MatchResult → MatchResult
  | [], _, acc => acc
  | t :: ts, q, acc => listFoldOrItems ts q (orM acc (tagQmatches t q))
termination_by l q _ => 2 * (sizeOf l + sizeOf q)
decreasing_by all_goals (simp_wf <;> omega)

/-- `self.iter().fold(Match, |m, item| m & item.qmatches(query))` (the `Not`
case of the slice matcher). -/
def listFoldAndItems : List Tag → Query → MatchResult → MatchResult
  | [], _, acc => acc
  | t :: ts, q, acc => listFoldAndItems ts q (andM acc (tagQmatches t q))
termination_by l q _ => 2 * (sizeOf l + sizeOf q)
decreasing_by all_goals (simp_wf <;> omega)

end

/-- `TagRef` (executor_meta.rs lines 228-232): borrowed view used by the
`ExecutorMeta` matcher. -/
inductive TagRef : Type
  | Map (m : List (String × Tag))
  | Value (s : String)

/-- `impl QueryMatcher for TagRef` (executor_meta.rs lines 234-241). -/
def tagRefQmatches : TagRef → Query → MatchResult
  | .Map m, q => mapQmatches m q
  | .Value v, q => strQmatches v q

/-- `ExecutorMeta` (executor_meta.rs lines 22-27). -/
structure ExecutorMeta : Type where
  client_id : String
  version : String
  tags : List (String × Tag)

/-- `impl QueryMatcher for ExecutorMeta` (executor_meta.rs lines 242-246):
matches as the two-element collection `[Value(client_id), Map(tags)]` under
the slice rules. -/
def ExecutorMeta.qmatches (meta : ExecutorMeta) (q : Query) : MatchResult :=
  sliceQmatches tagRefQmatches [TagRef.Value meta.client_id, TagRef.Map meta.tags] q


/-! ## Predicate parser (query-parser/src/parser.rs, module `parser_ng`)

The nom parser combinators are embedded as total functions on `List Char`.
A successful parser returns the value, the remaining input, and a proof that
at least one character was consumed (every grammar production below consumes
input on success); this certificate drives termination of the recursive
grammar.  nom error details (`VerboseError`) are abstracted: failure is
`none`. -/

/-- Characters accepted by nom's `multispace0`/`multispace1`. -/
def isSpaceChar (c : Char) : Bool :=
  c = ' ' || c = '\t' || c = '\r' || c = '\n'

/-- nom's `is_alphanumeric` (ASCII letters and digits). -/
def isAlphanumChar (c : Char) : Bool :=
  ('a' ≤ c && c ≤ 'z') || ('A' ≤ c && c ≤ 'Z') || ('0' ≤ c && c ≤ '9')

/-- `field_name` charset: alphanumeric or one of `SPECIAL_AUTHORIZED_CHARS`
(`-_@#.`, parser.rs line 36). -/
def isFieldNameChar (c : Char) : Bool :=
  isAlphanumChar c || c = '-' || c = '_' || c = '@' || c = '#' || c = '.'

/-- `word` accepts any character outside nom's `is_not(" ():,&|")` set
(parser.rs line 168). -/
def isWordChar (c : Char) : Bool :=
  !(c = ' ' || c = '(' || c = ')' || c = ':' || c = ',' || c = '&' || c = '|')

/-- Successful parse step that consumed at least one character. -/
structure PTok (α : Type) (l : List Char) : Type where
  val : α
  rest : List Char
  lt : rest.length < l.length

/-- Result of the `(sep elem)*` tail loop of a `separated_list1`: collected
elements and remaining input (possibly nothing consumed). -/
structure SepRes (l : List Char) : Type where
  items : List Query
  rest : List Char
  le : rest.length ≤ l.length

/-- nom `multispace0`: drop leading whitespace (with a length certificate). -/
def dropSpaces : (l : List Char) → { r : List Char // r.length ≤ l.length }
  | [] => ⟨[], Nat.le_refl _⟩
  | c :: cs =>
    if isSpaceChar c then
      let ⟨r, h⟩ := dropSpaces cs
      ⟨r, by simpa using Nat.le_succ_of_le h⟩
    else ⟨c :: cs, Nat.le_refl _⟩

/-- nom `multispace1`: at least one whitespace character, then greedily the
rest. -/
def multispace1P (l : List Char) : Option (PTok Unit l) :=
  match l with
  | [] => none
  | c :: cs =>
    if isSpaceChar c then
      let ⟨r, h⟩ := dropSpaces cs
      some ⟨(), r, by simp only [List.length_cons]; omega⟩
    else none

/-- `take_while`-style split: longest p-satisfying run and the remainder. -/
def spanP (p : Char → Bool) :
    (l : List Char) → List Char × { r : List Char // r.length ≤ l.length }
  | [] => ⟨[], [], Nat.le_refl _⟩
  | c :: cs =>
    if p c then
      let ⟨tok, r, h⟩ := spanP p cs
      ⟨c :: tok, r, by simp only [List.length_cons]; omega⟩
    else ⟨[], c :: cs, Nat.le_refl _⟩

/-- nom `take_while1` / `is_not`: nonempty longest run of characters
satisfying `p`. -/
def takeWhile1P (p : Char → Bool) (l : List Char) : Option (PTok (List Char) l) :=
  match l with
  | [] => none
  | c :: cs =>
    if p c then
      let ⟨tok, r, h⟩ := spanP p cs
      some ⟨c :: tok, r, by simp only [List.length_cons]; omega⟩
    else none

/-- nom `tag`: strip an exact literal. -/
def stripLit : (s : List Char) → (l : List Char) →
    Option { r : List Char // r.length + s.length = l.length }
  | [], l => some ⟨l, by simp⟩
  | _ :: _, [] => none
  | p :: ps, c :: cs =>
    if p = c then
      (stripLit ps cs).map fun ⟨r, h⟩ =>
        ⟨r, by simp only [List.length_cons]; omega⟩
    else none

/-- nom `tag_no_case`: strip a literal, comparing case-insensitively. -/
def stripCI : (s : List Char) → (l : List Char) →
    Option { r : List Char // r.length + s.length = l.length }
  | [], l => some ⟨l, by simp⟩
  | _ :: _, [] => none
  | p :: ps, c :: cs =>
    if p.toLower = c.toLower then
      (stripCI ps cs).map fun ⟨r, h⟩ =>
        ⟨r, by simp only [List.length_cons]; omega⟩
    else none

/-- `word`: `terminated(is_not(" ():,&|"), multispace0)` (parser.rs
lines 166-169). -/
def wordP (l : List Char) : Option (PTok (List Char) l) :=
  match takeWhile1P isWordChar l with
  | none => none
  | some ⟨tok, r, h⟩ =>
    let ⟨r2, h2⟩ := dropSpaces r
    some ⟨tok, r2, by omega⟩

/-- `quoted`: `terminated(delimited(char '"', is_not("\""), char '"'),
multispace0)` (parser.rs lines 171-174); note the content must be nonempty. -/
def quotedP (l : List Char) : Option (PTok (List Char) l) :=
  match l with
  | '"' :: cs =>
    match takeWhile1P (fun c => !(c = '"')) cs with
    | none => none
    | some ⟨tok, r, h⟩ =>
      match r, h with
      | '"' :: cs2, h =>
        let ⟨r2, h2⟩ := dropSpaces cs2
        some ⟨tok, r2, by simp only [List.length_cons] at *; omega⟩
      | _, _ => none
  | _ => none

/-- `wildcard`: `terminated(char '*', multispace0)` (parser.rs
lines 176-178). -/
def wildcardP (l : List Char) : Option (PTok Unit l) :=
  match l with
  | '*' :: cs =>
    let ⟨r, h⟩ := dropSpaces cs
    some ⟨(), r, by simp only [List.length_cons]; omega⟩
  | _ => none

/-- `field_name`: `take_while1(alphanumeric or SPECIAL_AUTHORIZED_CHARS)`
(parser.rs lines 154-156). -/
def fieldNameP (l : List Char) : Option (PTok (List Char) l) :=
  takeWhile1P isFieldNameChar l

/-- The `or` separator: `alt((terminated(tag_no_case("or"), multispace1),
terminated(alt((tag("||"), tag(","))), multispace0)))` (parser.rs
lines 68-75). -/
def orSepP (l : List Char) : Option (PTok Unit l) :=
  match (match stripCI ['o', 'r'] l with
         | some ⟨r, h⟩ =>
           match multispace1P r with
           | some ⟨_, r2, h2⟩ => some (⟨(), r2, by simp only [List.length_cons, List.length_nil] at *; omega⟩ : PTok Unit l)
           | none => none
         | none => none) with
  | some t => some t
  | none =>
    match stripLit ['|', '|'] l with
    | some ⟨r, h⟩ =>
      let ⟨r2, h2⟩ := dropSpaces r
      some ⟨(), r2, by simp only [List.length_cons, List.length_nil] at *; omega⟩
    | none =>
      match stripLit [','] l with
      | some ⟨r, h⟩ =>
        let ⟨r2, h2⟩ := dropSpaces r
        some ⟨(), r2, by simp only [List.length_cons, List.length_nil] at *; omega⟩
      | none => none

/-- The `and` separator: `alt((terminated(tag_no_case("and"), multispace1),
terminated(tag("&&"), multispace0)))` (parser.rs lines 97-104). -/
def andSepP (l : List Char) : Option (PTok Unit l) :=
  match (match stripCI ['a', 'n', 'd'] l with
         | some ⟨r, h⟩ =>
           match multispace1P r with
           | some ⟨_, r2, h2⟩ => some (⟨(), r2, by simp only [List.length_cons, List.length_nil] at *; omega⟩ : PTok Unit l)
           | none => none
         | none => none) with
  | some t => some t
  | none =>
    match stripLit ['&', '&'] l with
    | some ⟨r, h⟩ =>
      let ⟨r2, h2⟩ := dropSpaces r
      some ⟨(), r2, by simp only [List.length_cons, List.length_nil] at *; omega⟩
    | none => none

/-- `not_tags`: `alt((tag_no_case("not"), tag("!")))` (parser.rs
lines 116-118), used bare before a parenthesized factor. -/
def notTagsP (l : List Char) : Option { r : List Char // r.length < l.length } :=
  match stripCI ['n', 'o', 't'] l with
  | some ⟨r, h⟩ => some ⟨r, by simp only [List.length_cons, List.length_nil] at *; omega⟩
  | none =>
    match stripLit ['!'] l with
    | some ⟨r, h⟩ => some ⟨r, by simp only [List.length_cons, List.length_nil] at *; omega⟩
    | none => none

mutual

/-- `expression`: entry point, delegates to `or` (parser.rs lines 57-61). -/
def expressionP (l : List Char) : Option (PTok Query l) :=
  orP l
termination_by 16 * l.length + 10
decreasing_by all_goals (simp_wf <;> omega)

/-- `or`: `separated_list1(or-separator, term)`, collapsing a singleton and
building an n-ary `Or` otherwise (parser.rs lines 68-85). -/
def orP (l : List Char) : Option (PTok Query l) :=
  match termP l with
  | none => none
  | some ⟨q, r1, h1⟩ =>
    match orAuxP r1 with
    | ⟨items, r2, h2⟩ =>
      match items with
      | [] => some ⟨q, r2, by omega⟩
      | _ :: _ => some ⟨.Or (q :: items), r2, by omega⟩
termination_by 16 * l.length + 9
decreasing_by all_goals (simp_wf <;> omega)

/-- The `(sep term)*` tail of `or`'s `separated_list1`; when the separator
succeeds but the element fails, nom backtracks to before the separator. -/
def orAuxP (l : List Char) : SepRes l :=
  match orSepP l with
  | none => ⟨[], l, Nat.le_refl _⟩
  | some ⟨_, r1, h1⟩ =>
    match termP r1 with
    | none => ⟨[], l, Nat.le_refl _⟩
    | some ⟨q, r2, h2⟩ =>
      match orAuxP r2 with
      | ⟨items, r3, h3⟩ => ⟨q :: items, r3, by omega⟩
termination_by 16 * l.length + 15
decreasing_by all_goals (simp_wf <;> omega)

/-- `term`: `alt((and, not_factor))` (parser.rs lines 88-90). -/
def termP (l : List Char) : Option (PTok Query l) :=
  match andP l with
  | some t => some t
  | none => notFactorP l
termination_by 16 * l.length + 8
decreasing_by all_goals (simp_wf <;> omega)

/-- `and`: `separated_list1(and-separator, not_factor)` with singleton
collapse (parser.rs lines 97-114). -/
def andP (l : List Char) : Option (PTok Query l) :=
  match notFactorP l with
  | none => none
  | some ⟨q, r1, h1⟩ =>
    match andAuxP r1 with
    | ⟨items, r2, h2⟩ =>
      match items with
      | [] => some ⟨q, r2, by omega⟩
      | _ :: _ => some ⟨.And (q :: items), r2, by omega⟩
termination_by 16 * l.length + 7
decreasing_by all_goals (simp_wf <;> omega)

/-- The `(sep not_factor)*` tail of `and`'s `separated_list1`. -/
def andAuxP (l : List Char) : SepRes l :=
  match andSepP l with
  | none => ⟨[], l, Nat.le_refl _⟩
  | some ⟨_, r1, h1⟩ =>
    match notFactorP r1 with
    | none => ⟨[], l, Nat.le_refl _⟩
    | some ⟨q, r2, h2⟩ =>
      match andAuxP r2 with
      | ⟨items, r3, h3⟩ => ⟨q :: items, r3, by omega⟩
termination_by 16 * l.length + 14
decreasing_by all_goals (simp_wf <;> omega)

/-- `not_factor`: `alt((preceded(terminated(tag_no_case("not"), multispace1),
factor).map(Not), preceded(terminated(tag("!"), multispace0),
factor).map(Not), preceded(not_tags, parens).map(Not), factor))`
(parser.rs lines 121-128). -/
def notFactorP (l : List Char) : Option (PTok Query l) :=
  match (match stripCI ['n', 'o', 't'] l with
         | some ⟨r, h⟩ =>
           match multispace1P r with
           | some ⟨_, r2, h2⟩ =>
             match factorP r2 with
             | some ⟨q, r3, h3⟩ => some (⟨.Not q, r3, by omega⟩ : PTok Query l)
             | none => none
           | none => none
         | none => none) with
  | some t => some t
  | none =>
    match (match stripLit ['!'] l with
           | some ⟨r, h⟩ =>
             match dropSpaces r with
             | ⟨r2, h2⟩ =>
               match factorP r2 with
               | some ⟨q, r3, h3⟩ => some (⟨.Not q, r3, by omega⟩ : PTok Query l)
               | none => none
           | none => none) with
    | some t => some t
    | none =>
      match (match notTagsP l with
             | some ⟨r, h⟩ =>
               match parensP r with
               | some ⟨q, r2, h2⟩ => some (⟨.Not q, r2, by omega⟩ : PTok Query l)
               | none => none
             | none => none) with
      | some t => some t
      | none => factorP l
termination_by 16 * l.length + 6
decreasing_by all_goals (simp_wf <;> omega)

/-- `factor`: `alt((parens, query))` (parser.rs lines 131-133). -/
def factorP (l : List Char) : Option (PTok Query l) :=
  match parensP l with
  | some t => some t
  | none => queryP l
termination_by 16 * l.length + 5
decreasing_by all_goals (simp_wf <;> omega)

/-- `parens`: `delimited(terminated(char '(', multispace0), expression,
terminated(char ')', multispace0))` (parser.rs lines 136-142). -/
def parensP (l : List Char) : Option (PTok Query l) :=
  match l with
  | '(' :: cs =>
    match dropSpaces cs with
    | ⟨r1, h1⟩ =>
      match expressionP r1 with
      | some ⟨q, r2, h2⟩ =>
        match r2, h2 with
        | ')' :: cs2, h2 =>
          let ⟨r3, h3⟩ := dropSpaces cs2
          some ⟨q, r3, by simp only [List.length_cons] at *; omega⟩
        | _, _ => none
      | none => none
  | _ => none
termination_by 16 * l.length + 4
decreasing_by all_goals (simp_wf; (try simp only [List.length_cons] at *); omega)

/-- `query`: `alt((wildcard, field_text, quoted.map(Pattern),
word.map(Pattern)))` (parser.rs lines 145-152). -/
def queryP (l : List Char) : Option (PTok Query l) :=
  match wildcardP l with
  | some ⟨_, r, h⟩ => some ⟨.Wildcard, r, h⟩
  | none =>
    match fieldTextP l with
    | some t => some t
    | none =>
      match quotedP l with
      | some ⟨tok, r, h⟩ => some ⟨.Pattern (String.mk tok), r, h⟩
      | none =>
        match wordP l with
        | some ⟨tok, r, h⟩ => some ⟨.Pattern (String.mk tok), r, h⟩
        | none => none
termination_by 16 * l.length + 3
decreasing_by all_goals (simp_wf <;> omega)

/-- `field_text`: `separated_pair(field_name, char ':', factor)` mapped to
`FieldPattern` (parser.rs lines 159-164). -/
def fieldTextP (l : List Char) : Option (PTok Query l) :=
  match fieldNameP l with
  | some ⟨name, r1, h1⟩ =>
    match r1, h1 with
    | ':' :: cs, h1 =>
      match factorP cs with
      | some ⟨q, r2, h2⟩ =>
        some ⟨.FieldPattern (String.mk name) q, r2,
          by simp only [List.length_cons] at *; omega⟩
      | none => none
    | _, _ => none
  | none => none
termination_by 16 * l.length + 2
decreasing_by all_goals (simp_wf; (try simp only [List.length_cons] at *); omega)

end

/-- `QueryParseError` (query-parser/src/lib.rs lines 21-27).  The
`ParseError` payload is the debug rendering of the nom error, which is
abstracted here as the original input string; the `UnrecognizedInput`
payload is the unconsumed remainder, as in the source. -/
inductive QueryParseError : Type
  | ParseError (msg : String)
  | UnrecognizedInput (rest : String)

/-- `parse_raw` (parser.rs lines 28-33): `complete(parser_ng::expression)`;
`complete` only converts nom `Incomplete` results, which the embedded
parsers never produce. -/
def parse_raw (l : List Char) : Option (PTok Query l) :=
  expressionP l

/-- The body of `parse` at the character-list level: run the raw parser; a
parser error becomes `ParseError` (its message, a debug rendering of the nom
error, is abstracted as the input), leftover input becomes
`UnrecognizedInput`, otherwise the query is returned (the `RawQuery` to
`Query` conversion is the identity: `parser_ng` builds `Query` nodes
directly). -/
def parseList (l : List Char) : Except QueryParseError Query :=
  match parse_raw l with
  | none => .error (.ParseError (String.mk l))
  | some ⟨q, rest, _⟩ =>
    if rest.length > 0 then .error (.UnrecognizedInput (String.mk rest))
    else .ok q

/-- `parse` (query-parser/src/lib.rs lines 29-43). -/
def parse (i : String) : Except QueryParseError Query :=
  parseList i.data


/-! ## Signed-payload envelope and key stores
(common/src/crypto/signed_payload.rs, common/src/crypto/keystore.rs)

Bytes are embedded as `List Nat`; `u64` values as `Nat`.  Physical instants
(`SystemTime`) are embedded as nanoseconds since the unix epoch (`Nat`):
`SystemTime` carries sub-second precision and is compared exactly, while
`Duration::as_secs` truncates — both behaviours are reflected below.
Ed25519 (the ring library) and protobuf encoding (prost) are external
libraries and appear as parameters `sign`/`verify` and `encode`/`decode`. -/

/-- `SignedPayload` (grpc-service `payload::SignedPayload`, §6 wire schema). -/
structure SignedPayload : Type where
  payload : List Nat
  nonce : Nat
  valid_until_secs : Nat
  signature : List Nat
  key_id : String
  deriving DecidableEq

/-- Nanoseconds per second: the precision of the embedded `SystemTime`. -/
def nsPerSec : Nat := 1000000000

/-- `u64::to_le_bytes`: eight little-endian bytes. -/
def u64ToLeBytes (n : Nat) : List Nat :=
  (List.range 8).map (fun i => n / 256 ^ i % 256)

/-- `to_sign_from_exploded_payload` (signed_payload.rs lines 13-20): the
signing input is `payload ∥ nonce_le ∥ valid_until_secs_le`. -/
def to_sign_from_exploded_payload (payload : List Nat) (nonce valid_until_secs : Nat) :
    List Nat :=
  payload ++ u64ToLeBytes nonce ++ u64ToLeBytes valid_until_secs

/-- `payload_bytes_to_sign` (signed_payload.rs lines 9-11). -/
def payload_bytes_to_sign (p : SignedPayload) : List Nat :=
  to_sign_from_exploded_payload p.payload p.nonce p.valid_until_secs

/-- `encode_and_sign` (signed_payload.rs lines 34-73).
`valid_until_secs = ((now + validity).duration_since(UNIX_EPOCH)).as_secs()`,
i.e. the sum of the instants in nanoseconds truncated to whole seconds; the
nonce is sampled randomly (here: a parameter); the Ed25519 signature over the
composed signing input is the abstract `sign`.  Key/encoding failures of the
external libraries are not modelled (`encode` is total). -/
def encode_and_sign {P SK : Type} (encode : P → List Nat) (sign : SK → List Nat → List Nat)
    (payload : P) (key_id : String) (key : SK) (now_ns validity_ns nonce : Nat) :
    SignedPayload :=
  let valid_until_secs := (now_ns + validity_ns) / nsPerSec
  let payloadBytes := encode payload
  { payload := payloadBytes
    nonce := nonce
    valid_until_secs := valid_until_secs
    signature := sign key (to_sign_from_exploded_payload payloadBytes nonce valid_until_secs)
    key_id := key_id }

/-- `KeyStoreError` (keystore.rs lines 25-43).  The formatted message strings
are abstracted: `ExpiredSignature` keeps the two instants it reports (the
deadline and the current time), `PayloadDecodeError` drops the prost error
text; variants for base64/IO/storage failures are not modelled (they cannot
occur in the embedded operations). -/
inductive KeyStoreError : Type
  | KeyNotFound (key_id : String)
  | WrongSignature (key_id : String)
  | ExpiredSignature (valid_until_secs now_ns : Nat)
  | PayloadDecodeError
  | Poison
  deriving DecidableEq

/-- `verify_signature` (keystore.rs lines 70-83): look the key up in the
backend map (`KeyNotFound` if absent) and verify the Ed25519 signature
(`WrongSignature` on mismatch); `verify` abstracts
`ring::signature::UnparsedPublicKey::verify`. -/
def verify_signature {PK : Type} (verify : PK → List Nat → List Nat → Bool)
    (db : String → Option PK) (key_id : String) (payload signature : List Nat) :
    Except KeyStoreError Unit :=
  match db key_id with
  | none => .error (.KeyNotFound key_id)
  | some key_bytes =>
    if verify key_bytes payload signature then .ok () else .error (.WrongSignature key_id)

/-- `KeyStore::decode_payload` (keystore.rs lines 222-245): first the expiry
check (`valid_until < SystemTime::now()`, compared at full `SystemTime`
precision with `valid_until = UNIX_EPOCH + from_secs(valid_until_secs)`),
then signature verification over the recomposed signing input, then the
protobuf decode (`decodeP` abstracts `P::decode`). -/
def decode_payload {P PK : Type} (store : String → Option PK)
    (verify : PK → List Nat → List Nat → Bool) (decodeP : List Nat → Option P)
    (payload : SignedPayload) (now_ns : Nat) : Except KeyStoreError P :=
  if payload.valid_until_secs * nsPerSec < now_ns then
    .error (.ExpiredSignature payload.valid_until_secs now_ns)
  else
    match verify_signature verify store payload.key_id (payload_bytes_to_sign payload)
        payload.signature with
    | .error e => .error e
    | .ok _ =>
      match decodeP payload.payload with
      | some p => .ok p
      | none => .error .PayloadDecodeError

/-- `MemoryKeyStoreBackend::has_key` (keystore.rs lines 117-124): present and
byte-for-byte equal.  The `RwLock`-guarded `HashMap` is a lookup function;
lock poisoning cannot occur in the embedding. -/
def memory_has_key (db : String → Option (List Nat)) (key_id : String)
    (key_bytes : List Nat) : Except KeyStoreError Bool :=
  .ok (((db key_id).filter (fun bytes => bytes == key_bytes)).isSome)

/-- `FileKeyStoreBackend::has_key` (keystore.rs lines 158-164): identical
lookup-and-compare, run under the file database's `read`. -/
def file_has_key (db : String → Option (List Nat)) (key_id : String)
    (key_bytes : List Nat) : Except KeyStoreError Bool :=
  .ok (((db key_id).filter (fun bytes => bytes == key_bytes)).isSome)

/-! ## Task server (common/src/task_server.rs and task_server/…)

The current module root `task_server.rs` (the file defining `TaskServer`,
`register_executor`, `get_channels_to_matching_executors`, `get_task_sink`
for the `task_server/` service impls) is not part of the sources; only an
outdated revision of it and its callers are.  Definitions marked
`Modelled from the spec:` reconstruct those members from spec §4.5/§4.6. -/

/-- `ExecutionResult` variants of `TaskExecutionResult.execution_result`
(§6 wire schema). -/
inductive ExecutionResult : Type
  | TaskSubmitted
  | Ping
  | Stdout (bytes : List Nat)
  | Stderr (bytes : List Nat)
  | TaskRejected (reason : String)
  | TaskAborted
  | TaskCompleted (return_code : Int)
  | Disconnected
  deriving DecidableEq

/-- `TaskExecutionResult` (§6 wire schema); the oneof is an `Option`. -/
structure TaskExecutionResult : Type where
  task_id : String
  client_id : String
  execution_result : Option ExecutionResult
  deriving DecidableEq

/-- `LaunchTaskResponse.task_response` (§6 wire schema). -/
inductive TaskResponse : Type
  | MatchingExecutors (client_id : List String)
  | TaskExecutionResult (r : TaskExecutionResult)
  deriving DecidableEq

/-- gRPC status codes used by the embedded handlers. -/
inductive GrpcCode : Type
  | NotFound
  | FailedPrecondition
  | InvalidArgument
  | PermissionDenied
  | Internal
  deriving DecidableEq

/-- `register_new_task` (task_server.rs lines 74-84): insert the
commander-reply sender under a fresh task id (the random id is a
parameter). -/
def register_new_task {χ : Type} (tasks_sinks : String → Option χ) (task_id : String)
    (sender_to_commander : χ) : String → Option χ :=
  fun id => if id = task_id then some sender_to_commander else tasks_sinks id

/-- `get_task_sink` (task_server.rs lines 86-91): `HashMap::remove` — return
the sender for `task_id` (if any) and the map without that entry. -/
def get_task_sink {χ : Type} (tasks_sinks : String → Option χ) (task_id : String) :
    Option χ × (String → Option χ) :=
  (tasks_sinks task_id, fun id => if id = task_id then none else tasks_sinks id)

/-- `ExecutorService::task_execution`
(task_server/executor_service_impl.rs lines 98-155): take (and thereby
remove) the mailbox for `task_id`; absent → `NotFound`; otherwise forward
each event of the request stream to the mailbox sender.  Per-event signature
verification and the commander-disconnect send failure are abstracted
(events are assumed verified and delivered). -/
def task_execution {χ : Type} (tasks_sinks : String → Option χ) (task_id : String)
    (events : List TaskExecutionResult) :
    Except GrpcCode (List (χ × TaskResponse)) × (String → Option χ) :=
  match get_task_sink tasks_sinks task_id with
  | (some sender, sinks) =>
    (.ok (events.map (fun e => (sender, TaskResponse.TaskExecutionResult e))), sinks)
  | (none, sinks) => (.error .NotFound, sinks)

/-- `PublicKey` (§6 wire schema). -/
structure PublicKey : Type where
  key_id : String
  key_bytes : List Nat
  deriving DecidableEq

/-- `GetTasksRequest` (§6 wire schema); the protobuf `Tag` is embedded by
the same `Tag` type (the two `From` conversions in executor_meta.rs
lines 158-190 are inverse structure copies). -/
structure GetTasksRequest : Type where
  client_id : String
  client_version : String
  client_protocol_version : String
  tags : List (String × Tag)
  authorized_keys : List PublicKey

/-- `impl From<&GetTasksRequest> for ExecutorMeta` (executor_meta.rs
lines 144-156): copy `client_id`, `client_version` and the tags. -/
def executorMetaOfGetTasksRequest (r : GetTasksRequest) : ExecutorMeta :=
  { client_id := r.client_id, version := r.client_version, tags := r.tags }

/-- The server state relevant to registration and dispatch: the connected
map (`executors`), the persistent known-executors map
(`executor_meta_database`, an iterable association list), and the regular
commander key store (`authorized_keys`). -/
structure TaskServerState (χ : Type) : Type where
  executors : String → Option χ
  known_executors : List (String × ExecutorMeta)
  authorized_keys : String → Option (List Nat)

/-- Modelled from the spec: `TaskServer::register_executor` of the current
task_server.rs is missing from the sources (its caller
executor_service_impl.rs line 77 passes the request and the new inbox).
Spec §4.5 `register(meta, inbox)`: (1) insert/overwrite the
connected-executors entry, (2) write the known-executors entry (full replace
if the client_id exists), (3) for every public key in the request's
`authorized_keys` insert into the regular authorized-keys store, (4) persist
(a no-op here). -/
def register_executor {χ : Type} (st : TaskServerState χ) (request : GetTasksRequest)
    (inbox : χ) : TaskServerState χ :=
  let meta := executorMetaOfGetTasksRequest request
  { executors := fun id => if id = meta.client_id then some inbox else st.executors id
    known_executors :=
      (meta.client_id, meta) ::
        st.known_executors.filter (fun kv => !(kv.1 == meta.client_id))
    authorized_keys :=
      request.authorized_keys.foldl
        (fun db pk => fun id => if id = pk.key_id then some pk.key_bytes else db id)
        st.authorized_keys }

/-- Modelled from the spec: `TaskServer::get_channels_to_matching_executors`
of the current task_server.rs is missing from the sources.  Spec §4.5
`match_executors(query)`: scan the known-executors map, filter by
`meta.matches(query) == Match` (via `MatchResult::matches`), then attach the
current inbox for each match (`None` if known but disconnected). -/
def get_channels_to_matching_executors {χ : Type} (st : TaskServerState χ) (query : Query) :
    List (String × Option χ) :=
  let client_ids :=
    (st.known_executors.filter (fun kv => (kv.2.qmatches query).matches)).map (fun kv => kv.1)
  client_ids.map (fun client_id => (client_id, st.executors client_id))

/-- `CommanderService::launch_task`
(task_server/commander_service_impl.rs lines 39-186), as the sequence of
frames the handler pushes into the commander channel: one
`MatchingExecutors` frame listing the matching executors, then, per matching
executor in order, exactly one synthesized `TaskExecutionResult` —
`TaskSubmitted` if the inbox send succeeded (`sendOk`), `Disconnected` if
the executor is disconnected or its inbox is closed.  Payload verification
happens before this sequence (decode_payload); the per-frame random task ids
are the supply `fresh`; sends to the commander channel are assumed to
succeed (a disconnected commander aborts the handler instead). -/
def launch_task_frames {χ : Type} (st : TaskServerState χ) (sendOk : χ → Bool) (q : Query)
    (fresh : Nat → String) : List TaskResponse :=
  let senders := get_channels_to_matching_executors st q
  let matching_clients := senders.map (fun p => p.1)
  TaskResponse.MatchingExecutors matching_clients ::
    senders.enum.map (fun p =>
      match p.2.2 with
      | some inbox =>
        if sendOk inbox then
          .TaskExecutionResult ⟨fresh p.1, p.2.1, some .TaskSubmitted⟩
        else
          .TaskExecutionResult ⟨fresh p.1, p.2.1, some .Disconnected⟩
      | none => .TaskExecutionResult ⟨fresh p.1, p.2.1, some .Disconnected⟩)

/-- The commander-visible response stream of one dispatch: the handler's
fan-out frames followed by the events later forwarded from the executors'
`TaskExecution` streams (which, in this sequential trace model, are relayed
only after the fan-out loop has completed). -/
def dispatch_stream {χ : Type} (st : TaskServerState χ) (sendOk : χ → Bool) (q : Query)
    (fresh : Nat → String) (forwarded : List TaskResponse) : List TaskResponse :=
  launch_task_frames st sendOk q fresh ++ forwarded

/-- The §8 example metadata: `client_id = "siderant"`, tags
`env: prod`, `roles: [foo, bar]`,
`os: {type: Linux, sub_type: Ubuntu, version: "18.04"}`
(executor_meta.rs test `meta_match`). -/
def metaEx : ExecutorMeta :=
  { client_id := "siderant", version := "0.0.1",
    tags := [("env", .Value "prod"),
             ("roles", .List [.Value "foo", .Value "bar"]),
             ("os", .Map [("type", .Value "Linux"), ("sub_type", .Value "Ubuntu"),
                          ("version", .Value "18.04")])] }

/-- Whether a parse outcome is the `ParseError` failure (as opposed to
success or `UnrecognizedInput`). -/
def isParseErrorOutcome : Except QueryParseError Query → Bool
  | .error (.ParseError _) => true
  | _ => false


/-! ## Fold characterizations of the three-valued combinators -/

theorem foldl_andM_match_iff {β : Type} (g : β → MatchResult) (cs : List β)
    (acc : MatchResult) :
    cs.foldl (fun m c => andM m (g c)) acc = .Match ↔
      acc = .Match ∧ ∀ c ∈ cs, g c = .Match := by
  induction cs generalizing acc with
  | nil => simp
  | cons c cs ih =>
    simp only [List.foldl_cons, ih, List.mem_cons, forall_eq_or_imp]
    cases acc <;> cases hgc : g c <;> simp [andM, hgc] <;> tauto

theorem foldl_andM_rejected_iff {β : Type} (g : β → MatchResult) (cs : List β)
    (acc : MatchResult) :
    cs.foldl (fun m c => andM m (g c)) acc = .Rejected ↔
      acc = .Rejected ∨ ∃ c ∈ cs, g c = .Rejected := by
  induction cs generalizing acc with
  | nil => simp
  | cons c cs ih =>
    simp only [List.foldl_cons, ih, List.mem_cons, exists_eq_or_imp]
    cases acc <;> cases hgc : g c <;> simp [andM, hgc] <;> tauto

theorem foldl_orM_match_iff {β : Type} (g : β → MatchResult) (cs : List β)
    (acc : MatchResult) :
    cs.foldl (fun m c => orM m (g c)) acc = .Match ↔
      acc = .Match ∨ ∃ c ∈ cs, g c = .Match := by
  induction cs generalizing acc with
  | nil => simp
  | cons c cs ih =>
    simp only [List.foldl_cons, ih, List.mem_cons, exists_eq_or_imp]
    cases acc <;> cases hgc : g c <;> simp [orM, hgc] <;> tauto

theorem foldl_xorM_rejected_iff {β : Type} (g : β → MatchResult) (xs : List β)
    (acc : MatchResult) :
    xs.foldl (fun m x => xorM m (g x)) acc = .Rejected ↔
      acc = .Rejected ∨ ∃ x ∈ xs, g x = .Rejected := by
  induction xs generalizing acc with
  | nil => simp
  | cons x xs ih =>
    simp only [List.foldl_cons, ih, List.mem_cons, exists_eq_or_imp]
    cases acc <;> cases hgx : g x <;> simp [xorM, orM, hgx] <;> tauto

theorem foldl_xorM_match_iff {β : Type} (g : β → MatchResult) (xs : List β)
    (acc : MatchResult) :
    xs.foldl (fun m x => xorM m (g x)) acc = .Match ↔
      acc ≠ .Rejected ∧ (∀ x ∈ xs, g x ≠ .Rejected) ∧
        (acc = .Match ∨ ∃ x ∈ xs, g x = .Match) := by
  induction xs generalizing acc with
  | nil => cases acc <;> simp
  | cons x xs ih =>
    simp only [List.foldl_cons, ih, List.mem_cons, forall_eq_or_imp, exists_eq_or_imp]
    cases acc <;> cases hgx : g x <;> simp [xorM, orM, hgx] <;> tauto

/-- C1: over the slice matcher (`impl QueryMatcher for &[Q]`), a conjunction
`And(cs)` evaluates to `Match` exactly when every clause matches at least one
element (given that no clause is rejected by any element); if any clause is
rejected element-wise (the xor-fold preserves rejection), the whole
conjunction is `Rejected` rather than `Match`.  Concretely, `!foo and bar`
parses to `And [Not foo, bar]` and evaluates to `Rejected` on the list
`["foo", "bar"]`. -/
theorem claim_C1 :
    (∀ {α : Type} (em : α → Query → MatchResult) (xs : List α) (cs : List Query),
      ((∃ c ∈ cs, ∃ x ∈ xs, em x c = .Rejected) →
        sliceQmatches em xs (.And cs) = .Rejected) ∧
      ((∀ c ∈ cs, ∀ x ∈ xs, em x c ≠ .Rejected) →
        (sliceQmatches em xs (.And cs) = .Match ↔
          ∀ c ∈ cs, ∃ x ∈ xs, em x c = .Match))) ∧
    parse "!foo and bar" = .ok (.And [.Not (.Pattern "foo"), .Pattern "bar"]) ∧
    sliceQmatches strQmatches ["foo", "bar"]
      (.And [.Not (.Pattern "foo"), .Pattern "bar"]) = .Rejected := by
  refine ⟨fun {α} em xs cs => ⟨?_, ?_⟩, ?_, ?_⟩
  · intro ⟨c, hc, x, hx, hrej⟩
    rw [sliceQmatches, foldl_andM_rejected_iff]
    exact Or.inr ⟨c, hc, (foldl_xorM_rejected_iff _ _ _).mpr (Or.inr ⟨x, hx, hrej⟩)⟩
  · intro hnorej
    rw [sliceQmatches, foldl_andM_match_iff]
    constructor
    · intro ⟨_, hall⟩ c hc
      have := (foldl_xorM_match_iff _ _ _).mp (hall c hc)
      rcases this.2.2 with h | h
      · exact absurd h (by simp)
      · exact h
    · intro hall
      exact ⟨rfl, fun c hc => (foldl_xorM_match_iff _ _ _).mpr
        ⟨by simp, fun x hx => hnorej c hc x hx, Or.inr (hall c hc)⟩⟩
  · have q1 : queryP ['f','o','o',' ','a','n','d',' ','b','a','r'] =
        some ⟨.Pattern "foo", ['a','n','d',' ','b','a','r'], by decide⟩ := by
      rw [queryP, fieldTextP]; rfl
    have p1 : parensP ['f','o','o',' ','a','n','d',' ','b','a','r'] = none := by
      simp [parensP]
    have f1 : factorP ['f','o','o',' ','a','n','d',' ','b','a','r'] =
        some ⟨.Pattern "foo", ['a','n','d',' ','b','a','r'], by decide⟩ := by
      rw [factorP, p1, q1]
    have q0 : queryP ['!','f','o','o',' ','a','n','d',' ','b','a','r'] =
        some ⟨.Pattern "!foo", ['a','n','d',' ','b','a','r'], by decide⟩ := by
      rw [queryP, fieldTextP]; rfl
    have p0 : parensP ['!','f','o','o',' ','a','n','d',' ','b','a','r'] = none := by
      simp [parensP]
    have f0 : factorP ['!','f','o','o',' ','a','n','d',' ','b','a','r'] =
        some ⟨.Pattern "!foo", ['a','n','d',' ','b','a','r'], by decide⟩ := by
      rw [factorP, p0, q0]
    have n0 : notFactorP ['!','f','o','o',' ','a','n','d',' ','b','a','r'] =
        some ⟨.Not (.Pattern "foo"), ['a','n','d',' ','b','a','r'], by decide⟩ := by
      rw [notFactorP]
      simp [stripCI, stripLit, dropSpaces, multispace1P, isSpaceChar, notTagsP, f1, f0]
    have q3 : queryP ['b','a','r'] = some ⟨.Pattern "bar", [], by decide⟩ := by
      rw [queryP, fieldTextP]; rfl
    have p3 : parensP ['b','a','r'] = none := by simp [parensP]
    have f3 : factorP ['b','a','r'] = some ⟨.Pattern "bar", [], by decide⟩ := by
      rw [factorP, p3, q3]
    have n3 : notFactorP ['b','a','r'] = some ⟨.Pattern "bar", [], by decide⟩ := by
      rw [notFactorP]
      simp [stripCI, stripLit, dropSpaces, multispace1P, isSpaceChar, notTagsP, f3]
    have a4 : andAuxP ([] : List Char) = ⟨[], [], by decide⟩ := by rw [andAuxP]; rfl
    have a2 : andAuxP ['a','n','d',' ','b','a','r'] =
        ⟨[.Pattern "bar"], [], by decide⟩ := by
      rw [andAuxP]
      simp [andSepP, stripCI, stripLit, multispace1P, dropSpaces, isSpaceChar, n3, a4]
    have an0 : andP ['!','f','o','o',' ','a','n','d',' ','b','a','r'] =
        some ⟨.And [.Not (.Pattern "foo"), .Pattern "bar"], [], by decide⟩ := by
      rw [andP, n0]; dsimp only; rw [a2]
    have t0 : termP ['!','f','o','o',' ','a','n','d',' ','b','a','r'] =
        some ⟨.And [.Not (.Pattern "foo"), .Pattern "bar"], [], by decide⟩ := by
      rw [termP, an0]
    have o4 : orAuxP ([] : List Char) = ⟨[], [], by decide⟩ := by rw [orAuxP]; rfl
    have ex0 : expressionP ['!','f','o','o',' ','a','n','d',' ','b','a','r'] =
        some ⟨.And [.Not (.Pattern "foo"), .Pattern "bar"], [], by decide⟩ := by
      rw [expressionP, orP, t0]; dsimp only; rw [o4]
    rw [parse,
      show "!foo and bar".data = ['!','f','o','o',' ','a','n','d',' ','b','a','r'] from rfl,
      parseList, parse_raw, ex0]
    rfl
  · simp only [sliceQmatches, List.foldl_cons, List.foldl_nil, strQmatches, boolToMatch]
    decide


/-- Witness for C1: the theorem applied at the concrete example list and at a
rejection-free instance. -/
theorem claim_C1_witness :
    sliceQmatches strQmatches ["foo", "bar"]
      (.And [.Not (.Pattern "foo"), .Pattern "bar"]) = .Rejected ∧
    (sliceQmatches strQmatches ["bar"] (.And [.Pattern "bar"]) = .Match ↔
      ∀ c ∈ [Query.Pattern "bar"], ∃ x ∈ ["bar"], strQmatches x c = .Match) := by
  constructor
  · exact (claim_C1.1 strQmatches ["foo", "bar"]
      [.Not (.Pattern "foo"), .Pattern "bar"]).1
      ⟨.Not (.Pattern "foo"), by simp, "foo", by simp,
        by simp only [strQmatches, boolToMatch, notM]; decide⟩
  · exact (claim_C1.1 strQmatches ["bar"] [.Pattern "bar"]).2
      (by
        intro c hc x hx
        simp only [List.mem_singleton] at hc hx
        subst hc; subst hx
        simp only [strQmatches, boolToMatch]
        decide)

/-- C5: `ExecutorMeta` matches a query as the two-element collection
`[Value(client_id), Map(tags)]` under the slice rules; on the §8 example
metadata the bare pattern `siderant` (the client id) matches, the bare
pattern `prod` (a map value, not a key) does not, and the wildcard matches
every `ExecutorMeta`. -/
theorem claim_C5 :
    (∀ (meta : ExecutorMeta) (q : Query),
      meta.qmatches q =
        sliceQmatches tagRefQmatches [TagRef.Value meta.client_id, TagRef.Map meta.tags] q) ∧
    metaEx.qmatches (.Pattern "siderant") = .Match ∧
    metaEx.qmatches (.Pattern "prod") = .NoMatch ∧
    (∀ meta : ExecutorMeta, meta.qmatches .Wildcard = .Match) := by
  refine ⟨fun meta q => rfl, ?_, ?_, fun meta => rfl⟩
  · simp only [ExecutorMeta.qmatches, metaEx, sliceQmatches, List.foldl_cons, List.foldl_nil,
      tagRefQmatches, strQmatches, mapQmatches, boolToMatch]
    decide
  · simp only [ExecutorMeta.qmatches, metaEx, sliceQmatches, List.foldl_cons, List.foldl_nil,
      tagRefQmatches, strQmatches, mapQmatches, boolToMatch]
    decide

/-- C6: `MatchResult::matches` is true exactly on `Match` (`Rejected` and
`NoMatch` are non-selecting), so the registry scan returns exactly the known
executors whose metadata evaluates to `Match`, each paired with the current
inbox (`none` when known but disconnected). -/
theorem claim_C6 :
    (∀ r : MatchResult, r.matches = true ↔ r = .Match) ∧
    (∀ (χ : Type) (st : TaskServerState χ) (q : Query),
      get_channels_to_matching_executors st q =
        (st.known_executors.filter (fun kv => decide (kv.2.qmatches q = .Match))).map
          (fun kv => (kv.1, st.executors kv.1))) := by
  constructor
  · intro r; cases r <;> simp [MatchResult.matches]
  · intro χ st q
    rw [get_channels_to_matching_executors]
    rw [List.map_map]
    rw [List.filter_congr (fun kv _ => ?_)]
    rfl
    cases h : kv.2.qmatches q <;> simp [MatchResult.matches, h]

/-- C7: a `TaskExecution` call whose task id has no mailbox fails `NotFound`;
the mailbox entry is removed by the (first) matching call, so after that call
completes the map no longer contains the id and any further call for it
fails `NotFound`. -/
theorem claim_C7 {χ : Type} (sinks : String → Option χ) (task_id : String)
    (events events' : List TaskExecutionResult) :
    (sinks task_id = none →
      (task_execution sinks task_id events).1 = .error .NotFound) ∧
    ((task_execution sinks task_id events).2 task_id = none) ∧
    ((task_execution ((task_execution sinks task_id events).2) task_id events').1 =
      .error .NotFound) := by
  refine ⟨fun h => ?_, ?_, ?_⟩
  · simp [task_execution, get_task_sink, h]
  · cases h : sinks task_id <;> simp [task_execution, get_task_sink, h]
  · cases h : sinks task_id <;> simp [task_execution, get_task_sink, h]

/-- Witness for C7 at a concrete empty mailbox map. -/
theorem claim_C7_witness :
    (task_execution (χ := Unit) (fun _ => none) "42" []).1 = .error .NotFound :=
  (claim_C7 (χ := Unit) (fun _ => none) "42" [] []).1 rfl

/-- Inserting a list of public keys left-to-right does not change ids that
none of the keys carries. -/
theorem authKeysFold_untouched (ks : List PublicKey) (db : String → Option (List Nat))
    (id : String) (h : ∀ pk ∈ ks, pk.key_id ≠ id) :
    (ks.foldl (fun db pk => fun i => if i = pk.key_id then some pk.key_bytes else db i) db) id
      = db id := by
  induction ks generalizing db with
  | nil => rfl
  | cons k ks ih =>
    simp only [List.foldl_cons]
    rw [ih _ (fun pk hpk => h pk (List.mem_cons_of_mem _ hpk))]
    have hk : id ≠ k.key_id := Ne.symm (h k (List.mem_cons_self _ _))
    simp [hk]

/-- Inserting a list of public keys left-to-right maps every id occurring in
the list to the bytes of one of its occurrences (the last). -/
theorem authKeysFold_covers (ks : List PublicKey) :
    ∀ (db : String → Option (List Nat)) (pk : PublicKey), pk ∈ ks →
      ∃ pk' ∈ ks, pk'.key_id = pk.key_id ∧
        (ks.foldl (fun db pk => fun i => if i = pk.key_id then some pk.key_bytes else db i)
            db) pk.key_id = some pk'.key_bytes := by
  induction ks with
  | nil => intro db pk h; cases h
  | cons k ks ih =>
    intro db pk hmem
    simp only [List.foldl_cons]
    by_cases hex : ∃ pk'' ∈ ks, pk''.key_id = pk.key_id
    · obtain ⟨pk'', h2, hid⟩ := hex
      obtain ⟨pk', hp', hid', hv⟩ :=
        ih (fun i => if i = k.key_id then some k.key_bytes else db i) pk'' h2
      exact ⟨pk', List.mem_cons_of_mem _ hp', by rw [hid', hid], by rw [← hid]; exact hv⟩
    · have hpk : pk.key_id = k.key_id := by
        rcases List.mem_cons.mp hmem with rfl | hin
        · rfl
        · exact absurd ⟨pk, hin, rfl⟩ hex
      push_neg at hex
      refine ⟨k, List.mem_cons_self _ _, hpk.symm, ?_⟩
      rw [authKeysFold_untouched ks _ _ (fun p hp => hex p hp)]
      simp [hpk]

/-- C8: registering an executor through the `GetTasks` handshake inserts its
inbox into the connected map, writes its `ExecutorMeta` into the
known-executors store, and inserts every public key of the request's
`authorized_keys` into the server's regular authorized-keys store. -/
theorem claim_C8 (χ : Type) (st : TaskServerState χ) (request : GetTasksRequest) (inbox : χ) :
    ((register_executor st request inbox).executors request.client_id = some inbox) ∧
    (List.lookup request.client_id (register_executor st request inbox).known_executors =
      some (executorMetaOfGetTasksRequest request)) ∧
    (∀ pk ∈ request.authorized_keys, ∃ pk' ∈ request.authorized_keys,
      pk'.key_id = pk.key_id ∧
      (register_executor st request inbox).authorized_keys pk.key_id = some pk'.key_bytes) := by
  refine ⟨?_, ?_, ?_⟩
  · simp [register_executor, executorMetaOfGetTasksRequest]
  · simp [register_executor, executorMetaOfGetTasksRequest, List.lookup]
  · intro pk hpk
    exact authKeysFold_covers request.authorized_keys st.authorized_keys pk hpk

/-- Witness for C8 at a concrete one-key request. -/
theorem claim_C8_witness :
    (register_executor (χ := Unit)
        ⟨fun _ => none, [], fun _ => none⟩
        ⟨"exec1", "0.1", "1", [], [⟨"commander-key", [1, 2, 3]⟩]⟩ ()).authorized_keys
        "commander-key" = some [1, 2, 3] ∧
    (register_executor (χ := Unit)
        ⟨fun _ => none, [], fun _ => none⟩
        ⟨"exec1", "0.1", "1", [], [⟨"commander-key", [1, 2, 3]⟩]⟩ ()).executors
        "exec1" = some () := by
  constructor
  · obtain ⟨pk', hmem, hid, hval⟩ :=
      (claim_C8 Unit ⟨fun _ => none, [], fun _ => none⟩
        ⟨"exec1", "0.1", "1", [], [⟨"commander-key", [1, 2, 3]⟩]⟩ ()).2.2
        ⟨"commander-key", [1, 2, 3]⟩ (by simp)
    simp only [List.mem_singleton] at hmem
    subst hmem
    exact hval
  · exact (claim_C8 Unit ⟨fun _ => none, [], fun _ => none⟩
      ⟨"exec1", "0.1", "1", [], [⟨"commander-key", [1, 2, 3]⟩]⟩ ()).1


/-- Evaluation of the parser on the empty predicate: the raw parser fails
(every grammar atom needs at least one character), so `parse` returns
`ParseError`. -/
theorem parse_empty_eq : parse "" = .error (.ParseError "") := by
  have qe : queryP ([] : List Char) = none := by rw [queryP, fieldTextP]; rfl
  have pe : parensP ([] : List Char) = none := by simp [parensP]
  have fe : factorP ([] : List Char) = none := by rw [factorP, pe, qe]
  have ne : notFactorP ([] : List Char) = none := by rw [notFactorP, fe]; rfl
  have ae : andP ([] : List Char) = none := by rw [andP, ne]
  have te : termP ([] : List Char) = none := by rw [termP, ae, ne]
  have oe : orP ([] : List Char) = none := by rw [orP, te]
  have ee : expressionP ([] : List Char) = none := by rw [expressionP, oe]
  rw [parse, show "".data = ([] : List Char) from rfl, parseList, parse_raw, ee]

/-- Evaluation of the parser on `"&foo"`: `&` is outside every lexical atom
(`&` is excluded from words and field names), so the raw parser fails and
`parse` returns `ParseError`. -/
theorem parse_amp_foo_eq : parse "&foo" = .error (.ParseError "&foo") := by
  have qe : queryP ['&','f','o','o'] = none := by rw [queryP, fieldTextP]; rfl
  have pe : parensP ['&','f','o','o'] = none := by simp [parensP]
  have fe : factorP ['&','f','o','o'] = none := by rw [factorP, pe, qe]
  have ne : notFactorP ['&','f','o','o'] = none := by rw [notFactorP, fe]; rfl
  have ae : andP ['&','f','o','o'] = none := by rw [andP, ne]
  have te : termP ['&','f','o','o'] = none := by rw [termP, ae, ne]
  have oe : orP ['&','f','o','o'] = none := by rw [orP, te]
  have ee : expressionP ['&','f','o','o'] = none := by rw [expressionP, oe]
  rw [parse, show "&foo".data = ['&','f','o','o'] from rfl, parseList, parse_raw, ee]

/-- Evaluation of the parser on `"foo bar"`: the raw parser consumes
`foo ` (a word and its trailing whitespace), no separator follows, and the
remainder `bar` is reported as `UnrecognizedInput`, not `ParseError`. -/
theorem parse_foo_sp_bar_eq : parse "foo bar" = .error (.UnrecognizedInput "bar") := by
  have q1 : queryP ['f','o','o',' ','b','a','r'] =
      some ⟨.Pattern "foo", ['b','a','r'], by decide⟩ := by
    rw [queryP, fieldTextP]; rfl
  have p1 : parensP ['f','o','o',' ','b','a','r'] = none := by simp [parensP]
  have f1 : factorP ['f','o','o',' ','b','a','r'] =
      some ⟨.Pattern "foo", ['b','a','r'], by decide⟩ := by
    rw [factorP, p1, q1]
  have n1 : notFactorP ['f','o','o',' ','b','a','r'] =
      some ⟨.Pattern "foo", ['b','a','r'], by decide⟩ := by
    rw [notFactorP, f1]; rfl
  have a4 : andAuxP ['b','a','r'] = ⟨[], ['b','a','r'], by decide⟩ := by
    rw [andAuxP]; rfl
  have a1 : andP ['f','o','o',' ','b','a','r'] =
      some ⟨.Pattern "foo", ['b','a','r'], by decide⟩ := by
    rw [andP, n1]; dsimp only; rw [a4]
  have t1 : termP ['f','o','o',' ','b','a','r'] =
      some ⟨.Pattern "foo", ['b','a','r'], by decide⟩ := by
    rw [termP, a1]
  have o4 : orAuxP ['b','a','r'] = ⟨[], ['b','a','r'], by decide⟩ := by
    rw [orAuxP]; rfl
  have e1 : expressionP ['f','o','o',' ','b','a','r'] =
      some ⟨.Pattern "foo", ['b','a','r'], by decide⟩ := by
    rw [expressionP, orP, t1]; dsimp only; rw [o4]
  rw [parse, show "foo bar".data = ['f','o','o',' ','b','a','r'] from rfl,
    parseList, parse_raw, e1]
  rfl

/-- Evaluation of the parser on the wildcard predicate `"*"`. -/
theorem parse_star_eq : parse "*" = .ok .Wildcard := by
  have qe : queryP ['*'] = some ⟨.Wildcard, [], by decide⟩ := by rw [queryP]; rfl
  have pe : parensP ['*'] = none := by simp [parensP]
  have fe : factorP ['*'] = some ⟨.Wildcard, [], by decide⟩ := by rw [factorP, pe, qe]
  have ne : notFactorP ['*'] = some ⟨.Wildcard, [], by decide⟩ := by
    rw [notFactorP, fe]; rfl
  have a4 : andAuxP ([] : List Char) = ⟨[], [], by decide⟩ := by rw [andAuxP]; rfl
  have ae : andP ['*'] = some ⟨.Wildcard, [], by decide⟩ := by
    rw [andP, ne]; dsimp only; rw [a4]
  have te : termP ['*'] = some ⟨.Wildcard, [], by decide⟩ := by rw [termP, ae]
  have o4 : orAuxP ([] : List Char) = ⟨[], [], by decide⟩ := by rw [orAuxP]; rfl
  have ee : expressionP ['*'] = some ⟨.Wildcard, [], by decide⟩ := by
    rw [expressionP, orP, te]; dsimp only; rw [o4]
  rw [parse, show "*".data = ['*'] from rfl, parseList, parse_raw, ee]
  rfl

/-- Counterexample for C9: the input `"foo bar"` is parsed but not fully
consumed; `parse` returns the `UnrecognizedInput` failure, not the
`ParseError` failure the claim names. -/
theorem claim_C9_counterexample :
    parse "foo bar" = .error (.UnrecognizedInput "bar") ∧
    isParseErrorOutcome (parse "foo bar") = false := by
  refine ⟨parse_foo_sp_bar_eq, ?_⟩
  rw [parse_foo_sp_bar_eq]
  rfl

/-- C9 (amended): `parse` is total — every input yields a query or a
failure, never a panic; lexical failures (e.g. `"&foo"`) and the empty
predicate yield `ParseError`; an input that parses but is not fully consumed
(e.g. `"foo bar"`) yields the `UnrecognizedInput` failure instead. -/
theorem claim_C9 :
    (∀ s : String, (∃ q, parse s = .ok q) ∨ (∃ e, parse s = .error e)) ∧
    parse "" = .error (.ParseError "") ∧
    parse "&foo" = .error (.ParseError "&foo") ∧
    parse "foo bar" = .error (.UnrecognizedInput "bar") :=
  ⟨fun s => by
    cases h : parse s with
    | ok q => exact .inl ⟨q, rfl⟩
    | error e => exact .inr ⟨e, rfl⟩,
   parse_empty_eq, parse_amp_foo_eq, parse_foo_sp_bar_eq⟩

/-- C10: for both key-store backends, `has_key` returns `Ok(true)` exactly
when the store maps the id to byte-identical key bytes; absent ids or
different bytes give `Ok(false)`, never an error. -/
theorem claim_C10 :
    ∀ (db : String → Option (List Nat)) (key_id : String) (key_bytes : List Nat),
      (memory_has_key db key_id key_bytes = .ok true ↔ db key_id = some key_bytes) ∧
      (memory_has_key db key_id key_bytes = .ok false ↔ db key_id ≠ some key_bytes) ∧
      file_has_key db key_id key_bytes = memory_has_key db key_id key_bytes := by
  intro db key_id key_bytes
  refine ⟨?_, ?_, rfl⟩ <;>
    cases h : db key_id with
    | none => simp [memory_has_key, Option.filter, h]
    | some bytes =>
      by_cases hb : bytes = key_bytes <;>
        simp [memory_has_key, Option.filter, h, hb]

/-- Counterexample for C2: `valid_until_secs` is the signing instant plus
the validity, truncated to whole seconds, while the expiry check compares
the verification instant at full precision; signing at t = 0 with validity
0.5 s gives `valid_until_secs = 0`, so verifying at t = 0.4 s — elapsed
0.4 s < 0.5 s — already fails with `ExpiredSignature`. -/
theorem claim_C2_counterexample :
    (400000000 : Nat) - 0 < 500000000 ∧
    @decode_payload Nat Unit (fun _ => some ()) (fun _ m s => m == s)
      (fun l => l.head?)
      (encode_and_sign (fun n => [n]) (fun _ msg => msg) 37 "k" () 0 500000000 77)
      400000000 =
      .error (.ExpiredSignature 0 400000000) := by
  constructor
  · decide
  · rfl

/-- C2 (amended): the round trip
`decode_payload (encode_and_sign m k v)` returns `m` — with the abstract
Ed25519 correctness, prost round-trip and key-store hypotheses — provided
the verification instant does not exceed the second boundary
`valid_until_secs = ⌊(signing instant + validity)⌋s` (for which "less than v
elapsed" is necessary but, at sub-second precision, not sufficient); and both
sides compute the signing input as
`payload_bytes ∥ nonce_le ∥ valid_until_secs_le`. -/
theorem claim_C2 (P SK PK : Type) (encode : P → List Nat) (sign : SK → List Nat → List Nat)
    (decodeP : List Nat → Option P) (store : String → Option PK)
    (verify : PK → List Nat → List Nat → Bool)
    (m : P) (key_id : String) (key : SK) (pk : PK) (now_ns validity_ns nonce now2_ns : Nat)
    (hstore : store key_id = some pk)
    (hverify : ∀ msg, verify pk msg (sign key msg) = true)
    (hdecode : decodeP (encode m) = some m)
    (hfresh : now2_ns ≤ ((now_ns + validity_ns) / nsPerSec) * nsPerSec) :
    decode_payload store verify decodeP
      (encode_and_sign encode sign m key_id key now_ns validity_ns nonce) now2_ns = .ok m ∧
    (encode_and_sign encode sign m key_id key now_ns validity_ns nonce).signature =
      sign key (encode m ++ u64ToLeBytes nonce ++
        u64ToLeBytes ((now_ns + validity_ns) / nsPerSec)) ∧
    payload_bytes_to_sign (encode_and_sign encode sign m key_id key now_ns validity_ns nonce) =
      encode m ++ u64ToLeBytes nonce ++ u64ToLeBytes ((now_ns + validity_ns) / nsPerSec) := by
  refine ⟨?_, rfl, rfl⟩
  simp only [decode_payload, encode_and_sign, verify_signature, payload_bytes_to_sign,
    to_sign_from_exploded_payload, hstore, hdecode, if_neg (Nat.not_lt.mpr hfresh),
    hverify, if_true]

/-- Witness for C2 at a concrete toy signature scheme. -/
theorem claim_C2_witness :
    @decode_payload Nat Unit (fun _ => some ()) (fun _ msg sig => msg == sig)
      (fun l => l.head?)
      (encode_and_sign (fun n => [n]) (fun _ msg => msg) 37 "k" () 0 (60 * nsPerSec) 5)
      nsPerSec = .ok 37 :=
  (claim_C2 Nat Unit Unit (fun n => [n]) (fun _ msg => msg) (fun l => l.head?)
    (fun _ => some ()) (fun _ msg sig => msg == sig) 37 "k" () () 0 (60 * nsPerSec) 5 nsPerSec
    rfl (fun msg => by simp) rfl (by simp [nsPerSec])).1

/-- C3: the expiry check precedes every other check in `decode_payload` —
an expired payload fails `ExpiredSignature` regardless of the key store (in
particular when its key id is absent); a fresh payload fails `KeyNotFound`
for an absent key id, `WrongSignature` when Ed25519 verification fails, and
`PayloadDecodeError` when the payload bytes do not decode; and every
successful decode happened at an instant no later than `valid_until_secs`
(so `now_unix_secs ≤ valid_until_secs`). -/
theorem claim_C3 (P PK : Type) (store : String → Option PK)
    (verify : PK → List Nat → List Nat → Bool) (decodeP : List Nat → Option P)
    (sp : SignedPayload) (now_ns : Nat) :
    (sp.valid_until_secs < now_ns / nsPerSec →
      decode_payload store verify decodeP sp now_ns =
        .error (.ExpiredSignature sp.valid_until_secs now_ns)) ∧
    (sp.valid_until_secs * nsPerSec < now_ns →
      decode_payload store verify decodeP sp now_ns =
        .error (.ExpiredSignature sp.valid_until_secs now_ns)) ∧
    (¬ sp.valid_until_secs * nsPerSec < now_ns → store sp.key_id = none →
      decode_payload store verify decodeP sp now_ns = .error (.KeyNotFound sp.key_id)) ∧
    (∀ pk, ¬ sp.valid_until_secs * nsPerSec < now_ns → store sp.key_id = some pk →
      verify pk (payload_bytes_to_sign sp) sp.signature = false →
      decode_payload store verify decodeP sp now_ns = .error (.WrongSignature sp.key_id)) ∧
    (∀ pk, ¬ sp.valid_until_secs * nsPerSec < now_ns → store sp.key_id = some pk →
      verify pk (payload_bytes_to_sign sp) sp.signature = true → decodeP sp.payload = none →
      decode_payload store verify decodeP sp now_ns = .error .PayloadDecodeError) ∧
    (∀ p, decode_payload store verify decodeP sp now_ns = .ok p →
      now_ns ≤ sp.valid_until_secs * nsPerSec ∧ now_ns / nsPerSec ≤ sp.valid_until_secs) := by
  refine ⟨?_, ?_, ?_, ?_, ?_, ?_⟩
  · intro h
    have hlt : sp.valid_until_secs * nsPerSec < now_ns := by
      simp only [nsPerSec] at *
      omega
    rw [decode_payload, if_pos hlt]
  · intro hlt
    rw [decode_payload, if_pos hlt]
  · intro hfresh hnone
    simp [decode_payload, verify_signature, hfresh, hnone]
  · intro pk hfresh hsome hfail
    simp [decode_payload, verify_signature, hfresh, hsome, hfail]
  · intro pk hfresh hsome hok hdec
    simp [decode_payload, verify_signature, hfresh, hsome, hok, hdec]
  · intro p hok
    rw [decode_payload] at hok
    by_cases hexp : sp.valid_until_secs * nsPerSec < now_ns
    · rw [if_pos hexp] at hok
      exact absurd hok (by simp)
    · have h1 : now_ns ≤ sp.valid_until_secs * nsPerSec := Nat.not_lt.mp hexp
      refine ⟨h1, ?_⟩
      simp only [nsPerSec] at *
      omega

/-- Witness for C3: each branch applied at a concrete payload and store. -/
theorem claim_C3_witness :
    @decode_payload Nat Unit (fun _ => none) (fun _ _ _ => true)
      (fun l => l.head?) ⟨[1], 0, 10, [], "k"⟩ (11 * nsPerSec) =
      .error (.ExpiredSignature 10 (11 * nsPerSec)) ∧
    @decode_payload Nat Unit (fun _ => none) (fun _ _ _ => true)
      (fun l => l.head?) ⟨[1], 0, 10, [], "k"⟩ (2 * nsPerSec) =
      .error (.KeyNotFound "k") ∧
    @decode_payload Nat Unit (fun _ => some ()) (fun _ _ _ => false)
      (fun l => l.head?) ⟨[1], 0, 10, [], "k"⟩ (2 * nsPerSec) =
      .error (.WrongSignature "k") ∧
    @decode_payload Nat Unit (fun _ => some ()) (fun _ _ _ => true)
      (fun _ => none) ⟨[1], 0, 10, [], "k"⟩ (2 * nsPerSec) =
      .error .PayloadDecodeError ∧
    (2 * nsPerSec : Nat) / nsPerSec ≤ 10 := by
  refine ⟨?_, ?_, ?_, ?_, ?_⟩
  · exact (claim_C3 Nat Unit (fun _ => none) (fun _ _ _ => true) (fun l => l.head?)
      ⟨[1], 0, 10, [], "k"⟩ (11 * nsPerSec)).2.1 (by simp [nsPerSec])
  · exact (claim_C3 Nat Unit (fun _ => none) (fun _ _ _ => true) (fun l => l.head?)
      ⟨[1], 0, 10, [], "k"⟩ (2 * nsPerSec)).2.2.1 (by simp [nsPerSec]) rfl
  · exact (claim_C3 Nat Unit (fun _ => some ()) (fun _ _ _ => false) (fun l => l.head?)
      ⟨[1], 0, 10, [], "k"⟩ (2 * nsPerSec)).2.2.2.1 () (by simp [nsPerSec]) rfl rfl
  · exact (claim_C3 Nat Unit (fun _ => some ()) (fun _ _ _ => true) (fun _ => none)
      ⟨[1], 0, 10, [], "k"⟩ (2 * nsPerSec)).2.2.2.2.1 () (by simp [nsPerSec]) rfl rfl rfl
  · exact ((claim_C3 Nat Unit (fun _ => some ()) (fun _ _ _ => true) (fun l => l.head?)
      ⟨[1], 0, 10, [], "k"⟩ (2 * nsPerSec)).2.2.2.2.2 1 (by rfl)).2


/-- Position `i + 1` of the fan-out frame sequence is the synthesized event
for the `i`-th matching executor. -/
theorem launch_task_frames_getElem (χ : Type) (st : TaskServerState χ) (sendOk : χ → Bool)
    (q : Query) (fresh : Nat → String) (i : Nat)
    (h : i < (get_channels_to_matching_executors st q).length) :
    (launch_task_frames st sendOk q fresh)[i + 1]? =
      some (match ((get_channels_to_matching_executors st q).get ⟨i, h⟩).2 with
            | some inbox =>
              if sendOk inbox then
                TaskResponse.TaskExecutionResult
                  ⟨fresh i, ((get_channels_to_matching_executors st q).get ⟨i, h⟩).1,
                    some .TaskSubmitted⟩
              else
                TaskResponse.TaskExecutionResult
                  ⟨fresh i, ((get_channels_to_matching_executors st q).get ⟨i, h⟩).1,
                    some .Disconnected⟩
            | none =>
              TaskResponse.TaskExecutionResult
                ⟨fresh i, ((get_channels_to_matching_executors st q).get ⟨i, h⟩).1,
                  some .Disconnected⟩) := by
  simp only [launch_task_frames]
  rw [List.getElem?_cons_succ, List.getElem?_map, List.getElem?_enum,
    List.getElem?_eq_getElem h]
  rfl

/-- C4: for a dispatch whose predicate parses, the response stream begins
with exactly one `MatchingExecutors` frame listing all matching known
executors; it is followed by exactly one server-synthesized event per listed
executor — `TaskSubmitted` when the inbox send succeeded, `Disconnected`
when the executor is disconnected or its inbox is closed — and in the
dispatch stream every synthesized event precedes every forwarded
`TaskExecution` event (forwarding follows the fan-out in this sequential
trace model). -/
theorem claim_C4 (χ : Type) (st : TaskServerState χ) (sendOk : χ → Bool)
    (predicate : String) (q : Query) (fresh : Nat → String)
    (forwarded : List TaskResponse)
    (hparse : parse predicate = .ok q) :
    (launch_task_frames st sendOk q fresh).head? =
      some (.MatchingExecutors
        ((get_channels_to_matching_executors st q).map (fun p => p.1))) ∧
    (launch_task_frames st sendOk q fresh).length =
      1 + (get_channels_to_matching_executors st q).length ∧
    (∀ i (h : i < (get_channels_to_matching_executors st q).length),
      ((get_channels_to_matching_executors st q).get ⟨i, h⟩).2 = none →
        (launch_task_frames st sendOk q fresh)[i + 1]? =
          some (.TaskExecutionResult
            ⟨fresh i, ((get_channels_to_matching_executors st q).get ⟨i, h⟩).1,
              some .Disconnected⟩)) ∧
    (∀ i (h : i < (get_channels_to_matching_executors st q).length) (inbox : χ),
      ((get_channels_to_matching_executors st q).get ⟨i, h⟩).2 = some inbox →
      sendOk inbox = true →
        (launch_task_frames st sendOk q fresh)[i + 1]? =
          some (.TaskExecutionResult
            ⟨fresh i, ((get_channels_to_matching_executors st q).get ⟨i, h⟩).1,
              some .TaskSubmitted⟩)) ∧
    (∀ i (h : i < (get_channels_to_matching_executors st q).length) (inbox : χ),
      ((get_channels_to_matching_executors st q).get ⟨i, h⟩).2 = some inbox →
      sendOk inbox = false →
        (launch_task_frames st sendOk q fresh)[i + 1]? =
          some (.TaskExecutionResult
            ⟨fresh i, ((get_channels_to_matching_executors st q).get ⟨i, h⟩).1,
              some .Disconnected⟩)) ∧
    (∀ i, i < (launch_task_frames st sendOk q fresh).length →
      ∀ j, (launch_task_frames st sendOk q fresh).length ≤ j →
        (dispatch_stream st sendOk q fresh forwarded)[i]? =
          (launch_task_frames st sendOk q fresh)[i]? ∧ i < j) := by
  refine ⟨rfl, ?_, ?_, ?_, ?_, ?_⟩
  · simp [launch_task_frames]
    omega
  · intro i h hnone
    rw [launch_task_frames_getElem χ st sendOk q fresh i h, hnone]
  · intro i h inbox hsome hok
    rw [launch_task_frames_getElem χ st sendOk q fresh i h, hsome]
    simp [hok]
  · intro i h inbox hsome hfail
    rw [launch_task_frames_getElem χ st sendOk q fresh i h, hsome]
    simp [hfail]
  · intro i hi j hj
    refine ⟨?_, by omega⟩
    rw [dispatch_stream, List.getElem?_append, if_pos hi]

/-- Witness for C4 at a concrete one-executor registry and the wildcard
predicate. -/
theorem claim_C4_witness :
    (launch_task_frames (χ := Unit)
        ⟨fun id => if id = "e1" then some () else none, [("e1", ⟨"e1", "0.1", []⟩)],
          fun _ => none⟩
        (fun _ => true) .Wildcard (fun _ => "tid")).head? =
      some (.MatchingExecutors ["e1"]) ∧
    (launch_task_frames (χ := Unit)
        ⟨fun id => if id = "e1" then some () else none, [("e1", ⟨"e1", "0.1", []⟩)],
          fun _ => none⟩
        (fun _ => true) .Wildcard (fun _ => "tid"))[1]? =
      some (.TaskExecutionResult ⟨"tid", "e1", some .TaskSubmitted⟩) := by
  constructor
  · exact ((claim_C4 Unit
      ⟨fun id => if id = "e1" then some () else none, [("e1", ⟨"e1", "0.1", []⟩)],
        fun _ => none⟩
      (fun _ => true) "*" .Wildcard (fun _ => "tid") [] parse_star_eq).1).trans (by rfl)
  · exact (claim_C4 Unit
      ⟨fun id => if id = "e1" then some () else none, [("e1", ⟨"e1", "0.1", []⟩)],
        fun _ => none⟩
      (fun _ => true) "*" .Wildcard (fun _ => "tid") [] parse_star_eq).2.2.2.1 0 (by decide)
      () (by decide) rfl

end Funtonic
